import Mathlib

/-!
Verification of the `dualconn` repository: a shallow embedding of the
SQL façade (`db` package) and the process shell (`cmd/dualconn/main.go`),
together with a model of the connection-manager core, whose source is not
part of the excerpt and is therefore modelled from the specification.
-/

set_option linter.unusedVariables false

namespace Dualconn

/-! ## Generic string helpers mirroring the Go standard library -/

/-- Go `strings.Contains` on character lists: `strContains s sub` is true
iff `sub` occurs as a contiguous substring of `s` (the empty `sub` always
occurs). -/
def strContains : List Char → List Char → Bool
  | s, [] => true
  | [], _ :: _ => false
  | c :: cs, d :: ds => (List.isPrefixOf (d :: ds) (c :: cs)) || strContains cs (d :: ds)

/-- Go `unicode.IsSpace`: the white-space characters recognised by
`strings.Fields` (ASCII spaces plus the Unicode space separators). -/
def isGoSpace (c : Char) : Bool :=
  c = ' ' || c = '\t' || c = '\n' || c = '\x0b' || c = '\x0c' || c = '\r'
  || c = '\x85' || c = '\xa0' || c = ' '
  || (' ' ≤ c && c ≤ ' ')
  || c = ' ' || c = ' ' || c = ' ' || c = ' ' || c = '　'

/-- Accumulator version of Go `strings.Fields`: `word` holds the characters
of the current in-progress word in reverse order. -/
def goFieldsAux : List Char → List Char → List (List Char)
  | [], word => if word.isEmpty then [] else [word.reverse]
  | c :: cs, word =>
    if isGoSpace c then
      if word.isEmpty then goFieldsAux cs []
      else word.reverse :: goFieldsAux cs []
    else goFieldsAux cs (c :: word)

/-- Go `strings.Fields`: splits a character list around maximal runs of
white space, returning the (non-empty) words. -/
def goFields (l : List Char) : List (List Char) := goFieldsAux l []

/-! ## The `db` package: value kinds and type classification -/

/-- Scalar values flowing through the SQL façade (Go `any` cells). -/
inductive GoVal
  | int (i : Int)
  | str (s : String)
  | boolean (b : Bool)
  | null
deriving DecidableEq, Repr

/-- The closed value-kind enumeration of the `db` package (`ValueType`). -/
inductive ValueType
  | bool
  | int64
  | float64
  | string
  | bytes
  | other
deriving DecidableEq, Repr

/-- Go `db.Contains(s, ss...)`: whether any of `ss` occurs as a substring
of `s`. -/
def Contains (s : String) (ss : List String) : Bool :=
  ss.any (fun of => strContains s.data of.data)

/-- Go `strings.ToUpper` (character-wise, as `String.map Char.toUpper`
but written over the character list so that it evaluates by kernel
reduction). -/
def goToUpper (s : String) : String := String.mk (s.data.map Char.toUpper)

/-- The column-type classification performed in `NewRowScanner` on
`strings.ToUpper(columnType.DatabaseTypeName())`, transcribed arm by arm
from the Go `switch` (including the redundant `"BOOL"` in the third arm). -/
def databaseTypeValueType (typeName0 : String) : ValueType :=
  if Contains (goToUpper typeName0) ["CHAR", "TEXT", "NVARCHAR"] then ValueType.string
  else if Contains (goToUpper typeName0) ["BOOL"] then ValueType.bool
  else if Contains (goToUpper typeName0) ["BOOL", "INT", "NUMBER"] then ValueType.int64
  else if Contains (goToUpper typeName0) ["DECIMAL"] then ValueType.float64
  else if Contains (goToUpper typeName0) ["LOB"] then ValueType.bytes
  else ValueType.other

/-- The classification cascade exactly as the specification words it:
CHAR/TEXT/NVARCHAR select string, then BOOL selects bool, then INT/NUMBER
select int64, then DECIMAL selects float64, then LOB selects bytes,
anything else selects other. -/
def specValueType (typeName0 : String) : ValueType :=
  if Contains (goToUpper typeName0) ["CHAR", "TEXT", "NVARCHAR"] then ValueType.string
  else if Contains (goToUpper typeName0) ["BOOL"] then ValueType.bool
  else if Contains (goToUpper typeName0) ["INT", "NUMBER"] then ValueType.int64
  else if Contains (goToUpper typeName0) ["DECIMAL"] then ValueType.float64
  else if Contains (goToUpper typeName0) ["LOB"] then ValueType.bytes
  else ValueType.other

/-- The conversion rule `NullAny.Scan` applies for each value kind: one
`sql.NullXxx` scan per typed kind, the raw-byte rule for bytes (falling
through to the dynamic rule when the driver value is not a byte slice),
and the dynamic type-switch rule for everything else. -/
inductive ConversionRule
  | nullBool
  | nullInt64
  | nullFloat64
  | nullString
  | rawBytes
  | dynamic
deriving DecidableEq, Repr

/-- The dispatch table of `NullAny.Scan`, keyed by value kind. -/
def conversionRule : ValueType → ConversionRule
  | ValueType.bool => ConversionRule.nullBool
  | ValueType.int64 => ConversionRule.nullInt64
  | ValueType.float64 => ConversionRule.nullFloat64
  | ValueType.string => ConversionRule.nullString
  | ValueType.bytes => ConversionRule.rawBytes
  | ValueType.other => ConversionRule.dynamic

/-! ## The `db` package: query results and the JSON rows scanner -/

/-- `db.QueryResult`, with Go zero values standing for the omitted JSON
fields (`json:",omitempty"` tags on all three fields). -/
structure QueryResult where
  Error : String
  Cost : String
  Rows : List (List (String × GoVal))
deriving DecidableEq, Repr

/-- The JSON field names `encoding/json` emits for a `QueryResult`: each
of `error`, `cost`, `rows` appears exactly when its value is non-empty. -/
def jsonFields (qr : QueryResult) : List String :=
  (if qr.Error = "" then [] else ["error"])
    ++ (if qr.Cost = "" then [] else ["cost"])
    ++ (if qr.Rows = [] then [] else ["rows"])

/-- `db.JsonRowsScanner` (the `start` timestamp is handled separately,
through the `elapsed` parameters of `Query`/`Exec`). -/
structure JsonRowsScanner where
  Header : List String
  Limit : Int
  Offset : Int
  Rows : List (List (String × GoVal))
deriving DecidableEq, Repr

/-- `db.NewJsonRowsScanner(offset, limit)`. -/
def NewJsonRowsScanner (offset limit : Int) : JsonRowsScanner :=
  { Header := [], Limit := limit, Offset := offset, Rows := [] }

/-- `JsonRowsScanner.StartRows`. -/
def JsonRowsScanner.StartRows (j : JsonRowsScanner) (header : List String) :
    JsonRowsScanner :=
  { j with Header := header }

/-- Building one JSON row: `row[h] = columns[i]` for each header column. -/
def buildRow (header : List String) (columns : List GoVal) :
    List (String × GoVal) :=
  header.zip columns

/-- `JsonRowsScanner.AddRow`, transcribed from the Go method: skip rows
before the offset, stop once the limit window is exceeded, otherwise
append the row and continue. -/
def JsonRowsScanner.AddRow (j : JsonRowsScanner) (rowIndex : Int)
    (columns : List GoVal) : JsonRowsScanner × Bool :=
  if j.Offset > 0 ∧ rowIndex < j.Offset then (j, true)
  else if rowIndex + 1 > j.Limit + j.Offset then (j, false)
  else ({ j with Rows := j.Rows ++ [buildRow j.Header columns] },
        decide (j.Limit ≤ 0 ∨ rowIndex + 1 ≤ j.Limit + j.Offset))

/-- The scanning loop of `JsonRowsScanner.Scan`: feed each row to `AddRow`
with an increasing row number, stopping as soon as `AddRow` says so. -/
def JsonRowsScanner.scanLoop (j : JsonRowsScanner) (rowNum : Int) :
    List (List GoVal) → JsonRowsScanner
  | [] => j
  | r :: rs =>
    match j.AddRow rowNum r with
    | (j1, true) => j1.scanLoop (rowNum + 1) rs
    | (j1, false) => j1

/-- `JsonRowsScanner.Scan` on a successful row stream: record the header
(`StartRows`) and run the scanning loop from row number 0. -/
def JsonRowsScanner.Scan (j : JsonRowsScanner) (header : List String)
    (rows : List (List GoVal)) : JsonRowsScanner :=
  (j.StartRows header).scanLoop 0 rows

/-- `JsonRowsScanner.Complete`: fill in the cost and the collected rows. -/
def JsonRowsScanner.Complete (j : JsonRowsScanner) (elapsed : String)
    (result : QueryResult) : QueryResult :=
  { result with Cost := elapsed, Rows := j.Rows }

/-! ## The `db` package: `Query`, `Exec`, `PingDB`, `RunSQL` -/

/-- Possible behaviours of `db.QueryContext` followed by the row scan:
the query itself fails, the scan (`NewRowScanner`/`Columns`/`Scan`/
`rows.Err`) fails, or a header and a stream of converted rows arrive. -/
inductive QueryOutcome
  | connErr (msg : String)
  | scanErr (msg : String)
  | ok (header : List String) (rows : List (List GoVal))
deriving DecidableEq, Repr

/-- Possible behaviours of `db.ExecContext`: failure, or a result whose
`LastInsertId`/`RowsAffected` calls return values and optional errors. -/
inductive ExecOutcome
  | execErr (msg : String)
  | ok (lastInsertId rowsAffected : Int) (idErr affErr : Option String)
deriving DecidableEq, Repr

/-- `multierr.Append` restricted to what `Exec` needs: `nil` iff both
errors are `nil`. -/
def multierrAppend : Option String → Option String → Option String
  | none, none => none
  | some a, none => some a
  | none, some b => some b
  | some a, some b => some (a ++ "; " ++ b)

/-- `db.Query`: ping (result discarded), start the clock, run the query,
return only the error message on a query or scan failure, otherwise scan
the rows and complete with cost and rows. -/
def Query (scanner : JsonRowsScanner) (outcome : QueryOutcome)
    (elapsed : String) : QueryResult :=
  match outcome with
  | QueryOutcome.connErr msg => { Error := msg, Cost := "", Rows := [] }
  | QueryOutcome.scanErr msg => { Error := msg, Cost := "", Rows := [] }
  | QueryOutcome.ok header rows =>
      (scanner.Scan header rows).Complete elapsed
        { Error := "", Cost := "", Rows := [] }

/-- `db.Exec`: ping (result discarded), start the clock, execute; on
failure return only the error message, on success report last-insert-id
and rows-affected (plus their combined error, if any) as a single row. -/
def Exec (scanner : JsonRowsScanner) (outcome : ExecOutcome)
    (elapsed : String) : QueryResult :=
  match outcome with
  | ExecOutcome.execErr msg => { Error := msg, Cost := "", Rows := [] }
  | ExecOutcome.ok id affected idErr affErr =>
      match multierrAppend idErr affErr with
      | some e =>
          (((scanner.StartRows ["lastInsertId", "rowsAffected", "error"]).AddRow
              0 [GoVal.int id, GoVal.int affected, GoVal.str e]).1).Complete
            elapsed { Error := "", Cost := "", Rows := [] }
      | none =>
          (((scanner.StartRows ["lastInsertId", "rowsAffected"]).AddRow
              0 [GoVal.int id, GoVal.int affected]).1).Complete
            elapsed { Error := "", Cost := "", Rows := [] }

/-- What a run of `db.PingDB` did: the returned error, how many probe
attempts were issued, and how many 100ms sleeps were taken. -/
structure PingOutcome where
  result : Option String
  attempts : Nat
  sleeps : Nat
deriving DecidableEq, Repr

/-- `db.PingDB`: up to three `select 1` probes (`attemptOk i` tells
whether the `i`-th probe succeeds), a 100ms sleep after each failed probe,
and an unconditional `nil` return (the loop is the Go `for` unrolled). -/
def PingDB (attemptOk : Nat → Bool) : PingOutcome :=
  if attemptOk 0 then { result := none, attempts := 1, sleeps := 0 }
  else if attemptOk 1 then { result := none, attempts := 2, sleeps := 1 }
  else if attemptOk 2 then { result := none, attempts := 3, sleeps := 2 }
  else { result := none, attempts := 3, sleeps := 3 }

/-- The ambient behaviour of the database handle during one `RunSQL`
call, plus the elapsed time rendered by `time.Since(start).String()`. -/
structure DBBehavior where
  queryOutcome : QueryOutcome
  execOutcome : ExecOutcome
  elapsed : String

/-- `db.RunSQL`: builds a `JsonRowsScanner(0, 30)`, lower-cases the first
white-space-separated word of the query and dispatches to `Query` or
`Exec`. Indexing `strings.Fields(query)[0]` panics when the query has no
words; the panic is modelled as `none`. -/
def RunSQL (dbb : DBBehavior) (query : String) : Option QueryResult :=
  match goFields query.data with
  | [] => none
  | w :: _ =>
    if w.map Char.toLower = "select".data
        ∨ w.map Char.toLower = "show".data
        ∨ w.map Char.toLower = "desc".data
        ∨ w.map Char.toLower = "describe".data then
      some (Query (NewJsonRowsScanner 0 30) dbb.queryOutcome dbb.elapsed)
    else if w.map Char.toLower = "insert".data then
      if strContains (query.data.map Char.toLower) "returning".data then
        some (Query (NewJsonRowsScanner 0 30) dbb.queryOutcome dbb.elapsed)
      else
        some (Exec (NewJsonRowsScanner 0 30) dbb.execOutcome dbb.elapsed)
    else
      some (Exec (NewJsonRowsScanner 0 30) dbb.execOutcome dbb.elapsed)

/-! ## The connection-manager core

The manager itself (`dualconn.Manager`, target registry, dial coordinator
and composite connection) is not part of the source excerpt — only its
callers in `cmd/dualconn/main.go` are. The definitions below are
therefore modelled from the specification. -/

/-- Modelled from the spec: one configured backend endpoint of the target
registry, with its address and runtime enabled state (connection records
and timestamps are not needed by the claims below). -/
structure Target where
  address : String
  enabled : Bool
deriving DecidableEq, Repr

/-- Modelled from the spec: the manager, holding the ordered target list
(order fixed at construction and authoritative) and the mirroring flag
set by `WithProtagonistHalo`. -/
structure Manager where
  targets : List Target
  mirroringEnabled : Bool
deriving DecidableEq, Repr

/-- Modelled from the spec: `snapshotEnabledOrder()` returns the
configured targets in original order filtered to the enabled ones. -/
def snapshotEnabledOrder (m : Manager) : List Target :=
  m.targets.filter (fun t => t.enabled)

/-- Modelled from the spec: `setEnabled(address, enabled)` finds the
Target by exact address match, sets `enabled`, and returns whether the
address was found. -/
def setEnabled (m : Manager) (addr : String) (e : Bool) : Manager × Bool :=
  ({ m with
      targets := m.targets.map (fun t =>
        if t.address == addr then { t with enabled := e } else t) },
   m.targets.any (fun t => t.address == addr))

/-- Modelled from the spec: the `Manager.Enable` method the HTTP shell
calls as `mgr.Enable(target, disabled)`. Per the endpoint contract
(`disable=1` disables the target), the second argument is a disable flag,
so the target's enabled state is set to its negation. -/
def Manager.Enable (m : Manager) (addr : String) (disabled : Bool) :
    Manager × Bool :=
  setEnabled m addr (!disabled)

/-- The `/enable` handler of `cmd/dualconn/main.go`: parse the `disable`
parameter (`"1"` means disable), call `Enable`, answer 404 when the
target is unknown and (implicitly) 200 otherwise. -/
def enableHandler (m : Manager) (targetParam disableParam : String) :
    Nat × Manager :=
  if (m.Enable targetParam (disableParam == "1")).2 then
    (200, (m.Enable targetParam (disableParam == "1")).1)
  else
    (404, (m.Enable targetParam (disableParam == "1")).1)

/-- Modelled from the spec: a live halo member of a Composite Connection,
with the statistics the claims mention. -/
structure HaloMember where
  address : String
  bytesWritten : Nat
  closed : Bool
deriving DecidableEq, Repr

/-- Modelled from the spec: the Composite (dual) Connection — one
protagonist plus an ordered active halo set. -/
structure CConn where
  protagonist : String
  protagonistBytesWritten : Nat
  halo : List HaloMember
deriving DecidableEq, Repr

/-- Modelled from the spec: the `DialFailure` fault of the dial
coordinator. -/
inductive DialError
  | DialFailure
deriving DecidableEq, Repr

/-- A halo member freshly registered at dial time. -/
def newHalo (addr : String) : HaloMember :=
  { address := addr, bytesWritten := 0, closed := false }

/-- Modelled from the spec: `dial()`. `reachable a` says whether a dial
to address `a` succeeds within the dial timeout, and `finishOrder` is the
order in which the concurrent dial attempts happen to finish. With
mirroring, the successes are collected in finish order but the
protagonist is chosen by configured order among them; without mirroring
only the first enabled target is attempted. An empty enabled snapshot
fails with `DialFailure`. -/
def dial (m : Manager) (reachable : String → Bool)
    (finishOrder : List String) : Except DialError CConn :=
  match snapshotEnabledOrder m with
  | [] => Except.error DialError.DialFailure
  | t0 :: rest0 =>
    if m.mirroringEnabled then
      match (t0 :: rest0).filter
          (fun t => (finishOrder.filter reachable).contains t.address) with
      | [] => Except.error DialError.DialFailure
      | p :: halos =>
          Except.ok
            { protagonist := p.address, protagonistBytesWritten := 0,
              halo := halos.map (fun t => newHalo t.address) }
    else
      if reachable t0.address then
        Except.ok
          { protagonist := t0.address, protagonistBytesWritten := 0,
            halo := [] }
      else Except.error DialError.DialFailure

/-- Modelled from the spec: whether one halo write attempt counts as a
failure — an error, or a short write of fewer than `bufLen` bytes. -/
def haloWriteFails (bufLen : Nat) (r : Nat × Option String) : Bool :=
  r.2.isSome || decide (r.1 < bufLen)

/-- Modelled from the spec: mirror one buffer to every live halo member
in order. `hb a` is the `(n, err)` the member at address `a` reports.
Returns the remaining active halo set (successful members, stats
updated) and the members removed and marked closed. -/
def haloWriteAll (bufLen : Nat) (hb : String → Nat × Option String) :
    List HaloMember → List HaloMember × List HaloMember
  | [] => ([], [])
  | h :: hs =>
    if haloWriteFails bufLen (hb h.address) then
      ((haloWriteAll bufLen hb hs).1,
       { h with closed := true } :: (haloWriteAll bufLen hb hs).2)
    else
      ({ h with bytesWritten := h.bytesWritten + (hb h.address).1 }
          :: (haloWriteAll bufLen hb hs).1,
       (haloWriteAll bufLen hb hs).2)

/-- The full observable outcome of one `write` on a Composite
Connection: the `(n, err)` pair handed to the caller, the connection
afterwards, and the halo members closed by this call. -/
structure WriteOutcome where
  n : Nat
  err : Option String
  conn : CConn
  closedHalo : List HaloMember
deriving DecidableEq, Repr

/-- Modelled from the spec: `write(buffer)` on a Composite Connection.
The protagonist is written first (`pw` is its `(n, err)` result); a
protagonist failure returns immediately and no halo write is attempted.
On protagonist success the buffer is mirrored to each halo member, and
the caller always receives the protagonist's result. -/
def CConn.write (c : CConn) (bufLen : Nat) (pw : Nat × Option String)
    (hb : String → Nat × Option String) : WriteOutcome :=
  match pw with
  | (pn, some e) => { n := pn, err := some e, conn := c, closedHalo := [] }
  | (pn, none) =>
      { n := pn, err := none,
        conn := { c with
          protagonistBytesWritten := c.protagonistBytesWritten + pn,
          halo := (haloWriteAll bufLen hb c.halo).1 },
        closedHalo := (haloWriteAll bufLen hb c.halo).2 }

/-! ## Concrete instances used as evaluation witnesses -/

/-- A two-target manager in mirroring mode, as in the default flags of
`cmd/dualconn/main.go`. -/
def exManager : Manager :=
  { targets := [ { address := "127.0.0.1:3301", enabled := true },
                 { address := "127.0.0.1:3302", enabled := true } ],
    mirroringEnabled := true }

/-- A manager whose single target has been disabled. -/
def exManagerDisabled : Manager :=
  { targets := [ { address := "127.0.0.1:3301", enabled := false } ],
    mirroringEnabled := true }

/-- A manager with one enabled target, used by the `setEnabled`
counterexample. -/
def exManagerOne : Manager :=
  { targets := [ { address := "127.0.0.1:3301", enabled := true } ],
    mirroringEnabled := true }

/-- A reachability scenario where only the second target answers. -/
def exReachable (a : String) : Bool := a == "127.0.0.1:3302"

/-- A finish order in which the second target's dial finishes first. -/
def exFinishOrder : List String := ["127.0.0.1:3302", "127.0.0.1:3301"]

/-- A database behaviour returning one row. -/
def exDB : DBBehavior :=
  { queryOutcome := QueryOutcome.ok ["k"] [[GoVal.str "v"]],
    execOutcome := ExecOutcome.ok 1 1 none none,
    elapsed := "2.86166ms" }

/-- A composite connection with one halo member. -/
def exConn : CConn :=
  { protagonist := "127.0.0.1:3301", protagonistBytesWritten := 0,
    halo := [newHalo "127.0.0.1:3302"] }

/-- The result `RunSQL exDB "select 1"` evaluates to. -/
def exQr : QueryResult :=
  { Error := "", Cost := "2.86166ms", Rows := [[("k", GoVal.str "v")]] }

/-! ## Helper lemmas -/

theorem goFieldsAux_ne_nil (l : List Char) (word : List Char) (h : word ≠ []) :
    goFieldsAux l word ≠ [] := by
  induction l generalizing word with
  | nil => simp [goFieldsAux, h]
  | cons c cs ih =>
    rw [goFieldsAux]
    by_cases hs : isGoSpace c = true
    · simp [hs, h]
    · simp only [hs]
      exact ih (c :: word) (by simp)

theorem goFields_eq_nil_iff (l : List Char) :
    goFields l = [] ↔ ∀ c ∈ l, isGoSpace c = true := by
  unfold goFields
  induction l with
  | nil => simp [goFieldsAux]
  | cons c cs ih =>
    rw [goFieldsAux]
    by_cases hs : isGoSpace c = true
    · simp [hs, ih]
    · simp only [hs, if_neg]
      simp only [Bool.false_eq_true, if_false]
      constructor
      · intro hcontra
        exact absurd hcontra (goFieldsAux_ne_nil cs [c] (by simp))
      · intro hall
        exact absurd (hall c (List.mem_cons_self c cs)) (by simp [hs])

theorem RunSQL_isSome_of_fields_cons (dbb : DBBehavior) (q : String)
    (w : List Char) (ws : List (List Char)) (hg : goFields q.data = w :: ws) :
    ∃ r, RunSQL dbb q = some r := by
  unfold RunSQL
  rw [hg]
  repeat' split
  all_goals first
    | exact ⟨_, rfl⟩
    | simp_all

/-! ## Claim C5 -/

/-- Claim C5: type coercion of result columns is a closed mapping onto
exactly six value kinds. The classification implemented in
`NewRowScanner` (whose third arm redundantly re-tests `"BOOL"`) agrees,
on every database type name, with the priority cascade as the
specification words it — CHAR/TEXT/NVARCHAR select string, then BOOL
selects bool, then INT/NUMBER select int64, then DECIMAL selects float64,
then LOB selects bytes, anything else selects other — each kind is
realised by some type name, and `NullAny.Scan` applies one conversion
rule per kind, given by the dispatch table `conversionRule`. -/
theorem column_type_classification :
    (∀ typeName : String,
        databaseTypeValueType typeName = specValueType typeName)
    ∧ ["VARCHAR", "BOOL", "INT", "DECIMAL", "BLOB", "DATE"].map
          databaseTypeValueType
        = [ValueType.string, ValueType.bool, ValueType.int64,
           ValueType.float64, ValueType.bytes, ValueType.other]
    ∧ conversionRule ValueType.bool = ConversionRule.nullBool
    ∧ conversionRule ValueType.bytes = ConversionRule.rawBytes := by
  refine ⟨?_, by decide, rfl, rfl⟩
  intro t
  unfold databaseTypeValueType specValueType
  by_cases h1 : Contains (goToUpper t) ["CHAR", "TEXT", "NVARCHAR"] = true
  · simp [h1]
  · by_cases h2 : Contains (goToUpper t) ["BOOL"] = true
    · simp [h1, h2]
    · have h3 : Contains (goToUpper t) ["BOOL", "INT", "NUMBER"]
          = Contains (goToUpper t) ["INT", "NUMBER"] := by
        simp only [Contains, List.any_cons, List.any_nil] at h2 ⊢
        simp only [Bool.or_false] at h2
        simp [h2]
      simp [h1, h2, h3]

/-! ## Claim C8 -/

/-- Claim C8: `RunSQL` panics (modelled as `none`) exactly on queries
with no non-white-space characters, because it indexes
`strings.Fields(query)[0]`; every query with at least one word yields a
(non-nil) `QueryResult`. -/
theorem RunSQL_blank_query_panics (dbb : DBBehavior) (q : String) :
    (RunSQL dbb q = none ↔ ∀ c ∈ q.data, isGoSpace c = true)
    ∧ ((∃ c ∈ q.data, isGoSpace c = false) →
        ∃ r, RunSQL dbb q = some r) := by
  have hnone : RunSQL dbb q = none ↔ goFields q.data = [] := by
    cases hg : goFields q.data with
    | nil =>
      unfold RunSQL
      rw [hg]
      simp
    | cons w ws =>
      obtain ⟨r, hr⟩ := RunSQL_isSome_of_fields_cons dbb q w ws hg
      rw [hr]
      simp
  constructor
  · rw [hnone]
    exact goFields_eq_nil_iff q.data
  · intro ⟨c, hc, hcs⟩
    cases hg : goFields q.data with
    | nil =>
      have := (goFields_eq_nil_iff q.data).1 hg c hc
      rw [this] at hcs
      exact absurd hcs (by simp)
    | cons w ws => exact RunSQL_isSome_of_fields_cons dbb q w ws hg

/-- Witness for C8 at concrete inputs: the empty query (a missing `q`
parameter) panics, and `"select 1"` returns a result. -/
theorem RunSQL_blank_query_panics_witness :
    (RunSQL exDB "" = none ↔ ∀ c ∈ "".data, isGoSpace c = true)
    ∧ ((∃ c ∈ "select 1".data, isGoSpace c = false) →
        ∃ r, RunSQL exDB "select 1" = some r) :=
  ⟨(RunSQL_blank_query_panics exDB "").1,
   (RunSQL_blank_query_panics exDB "select 1").2⟩

/-! ## Claim C10 -/

/-- Claim C10: `PingDB` returns `nil` for every input and database
behaviour; it issues at most three probe attempts, and sleeps 100ms once
per failed attempt among those issued. -/
theorem PingDB_never_fails (attemptOk : Nat → Bool) :
    (PingDB attemptOk).result = none
    ∧ (PingDB attemptOk).attempts ≤ 3
    ∧ (PingDB attemptOk).sleeps
        = ((List.range (PingDB attemptOk).attempts).filter
            (fun i => !(attemptOk i))).length := by
  unfold PingDB
  by_cases h0 : attemptOk 0 = true
  · simp [h0, List.range_succ]
  · by_cases h1 : attemptOk 1 = true
    · simp [h0, h1, List.range_succ]
    · by_cases h2 : attemptOk 2 = true
      · simp [h0, h1, h2, List.range_succ]
      · simp [h0, h1, h2, List.range_succ]

/-! ## Helper lemmas for the query-result shape -/

theorem jsonFields_subset (qr : QueryResult) :
    jsonFields qr ⊆ ["error", "cost", "rows"] := by
  intro x hx
  simp only [jsonFields, List.mem_append] at hx
  rcases hx with (hx | hx) | hx <;> (split at hx <;> simp_all)

theorem RunSQL_some_shape (dbb : DBBehavior) (q : String) (qr : QueryResult)
    (h : RunSQL dbb q = some qr) :
    qr = Query (NewJsonRowsScanner 0 30) dbb.queryOutcome dbb.elapsed
    ∨ qr = Exec (NewJsonRowsScanner 0 30) dbb.execOutcome dbb.elapsed := by
  unfold RunSQL at h
  rcases hg : goFields q.data with _ | ⟨w, ws⟩ <;> rw [hg] at h
  · simp at h
  · repeat' split at h
    all_goals first
      | (simp only [Option.some.injEq] at h
         first
           | exact Or.inl h.symm
           | exact Or.inr h.symm)
      | exact absurd h (by simp)

theorem Query_error_shape (s : JsonRowsScanner) (o : QueryOutcome)
    (e : String) :
    (Query s o e).Error ≠ "" →
      (Query s o e).Cost = "" ∧ (Query s o e).Rows = [] := by
  cases o <;> simp [Query, JsonRowsScanner.Complete]

theorem Exec_error_shape (s : JsonRowsScanner) (o : ExecOutcome)
    (e : String) :
    (Exec s o e).Error ≠ "" →
      (Exec s o e).Cost = "" ∧ (Exec s o e).Rows = [] := by
  cases o with
  | execErr msg => simp [Exec]
  | ok id aff idErr affErr =>
    unfold Exec
    cases hm : multierrAppend idErr affErr <;>
      simp [hm, JsonRowsScanner.Complete]

theorem Exec_ok_fields (s : JsonRowsScanner) (id aff : Int)
    (idErr affErr : Option String) (e : String) :
    (Exec s (ExecOutcome.ok id aff idErr affErr) e).Error = ""
    ∧ (Exec s (ExecOutcome.ok id aff idErr affErr) e).Cost = e := by
  unfold Exec
  cases hm : multierrAppend idErr affErr <;>
    simp [hm, JsonRowsScanner.Complete]

/-! ## Claim C3 -/

/-- Claim C3: every `/query` response is a JSON object with at most the
fields `error`, `cost`, `rows`, each omitted when empty; a failed
database operation or row scan yields only the error message, and
success yields no error and the elapsed time as cost (for both the
`Query` and the `Exec` dispatch paths of `RunSQL`). -/
theorem query_response_shape :
    (∀ (dbb : DBBehavior) (q : String) (qr : QueryResult),
        RunSQL dbb q = some qr →
          jsonFields qr ⊆ ["error", "cost", "rows"]
          ∧ (qr.Error ≠ "" → qr.Cost = "" ∧ qr.Rows = []))
    ∧ (∀ (s : JsonRowsScanner) (msg e : String),
        Query s (QueryOutcome.connErr msg) e
            = { Error := msg, Cost := "", Rows := [] }
        ∧ Query s (QueryOutcome.scanErr msg) e
            = { Error := msg, Cost := "", Rows := [] })
    ∧ (∀ (s : JsonRowsScanner) (header : List String)
          (rows : List (List GoVal)) (e : String),
        (Query s (QueryOutcome.ok header rows) e).Error = ""
        ∧ (Query s (QueryOutcome.ok header rows) e).Cost = e)
    ∧ (∀ (s : JsonRowsScanner) (msg e : String),
        Exec s (ExecOutcome.execErr msg) e
            = { Error := msg, Cost := "", Rows := [] })
    ∧ (∀ (s : JsonRowsScanner) (id aff : Int)
          (idErr affErr : Option String) (e : String),
        (Exec s (ExecOutcome.ok id aff idErr affErr) e).Error = ""
        ∧ (Exec s (ExecOutcome.ok id aff idErr affErr) e).Cost = e) := by
  refine ⟨?_, ?_, ?_, ?_, ?_⟩
  · intro dbb q qr h
    refine ⟨jsonFields_subset qr, ?_⟩
    rcases RunSQL_some_shape dbb q qr h with hq | he
    · rw [hq]; exact Query_error_shape _ _ _
    · rw [he]; exact Exec_error_shape _ _ _
  · intro s msg e
    exact ⟨rfl, rfl⟩
  · intro s header rows e
    exact ⟨rfl, rfl⟩
  · intro s msg e
    exact rfl
  · intro s id aff idErr affErr e
    exact Exec_ok_fields s id aff idErr affErr e

/-- Witness for C3: the concrete request `RunSQL exDB "select 1"`
produces `exQr`, whose JSON fields obey the claimed shape. -/
theorem query_response_shape_witness :
    jsonFields exQr ⊆ ["error", "cost", "rows"]
    ∧ (exQr.Error ≠ "" → exQr.Cost = "" ∧ exQr.Rows = []) :=
  query_response_shape.1 exDB "select 1" exQr (by decide)

/-! ## Helper lemmas for the row-count bound -/

theorem AddRow_stop (j : JsonRowsScanner) (i : Int) (cols : List GoVal)
    (hO : j.Offset = 0) (hL : j.Limit = 30) (hgt : i + 1 > 30) :
    j.AddRow i cols = (j, false) := by
  unfold JsonRowsScanner.AddRow
  rw [hO, hL]
  have h1 : ¬((0 : Int) > 0 ∧ i < 0) := by omega
  rw [if_neg h1, if_pos (by omega)]

theorem AddRow_append (j : JsonRowsScanner) (i : Int) (cols : List GoVal)
    (hO : j.Offset = 0) (hL : j.Limit = 30) (hi : 0 ≤ i) (hle : i + 1 ≤ 30) :
    j.AddRow i cols
      = ({ j with Rows := j.Rows ++ [buildRow j.Header cols] }, true) := by
  unfold JsonRowsScanner.AddRow
  rw [hO, hL]
  have h1 : ¬((0 : Int) > 0 ∧ i < 0) := by omega
  have h2 : decide ((30 : Int) ≤ 0 ∨ i + 1 ≤ 30 + 0) = true :=
    decide_eq_true (by omega)
  rw [if_neg h1, if_neg (by omega), h2]

theorem scanLoop_cons_true (j j1 : JsonRowsScanner) (i : Int)
    (r : List GoVal) (rs : List (List GoVal)) (h : j.AddRow i r = (j1, true)) :
    j.scanLoop i (r :: rs) = j1.scanLoop (i + 1) rs := by
  rw [show JsonRowsScanner.scanLoop j i (r :: rs)
        = (match j.AddRow i r with
           | (j1, true) => j1.scanLoop (i + 1) rs
           | (j1, false) => j1) from rfl, h]

theorem scanLoop_cons_false (j j1 : JsonRowsScanner) (i : Int)
    (r : List GoVal) (rs : List (List GoVal)) (h : j.AddRow i r = (j1, false)) :
    j.scanLoop i (r :: rs) = j1 := by
  rw [show JsonRowsScanner.scanLoop j i (r :: rs)
        = (match j.AddRow i r with
           | (j1, true) => j1.scanLoop (i + 1) rs
           | (j1, false) => j1) from rfl, h]

theorem scanLoop_length_bound (rows : List (List GoVal)) :
    ∀ (j : JsonRowsScanner) (i : Int), j.Offset = 0 → j.Limit = 30 →
      0 ≤ i →
      (j.scanLoop i rows).Rows.length ≤ j.Rows.length + (30 - i).toNat := by
  induction rows with
  | nil =>
    intro j i hO hL hi
    simp [JsonRowsScanner.scanLoop]
  | cons r rs ih =>
    intro j i hO hL hi
    by_cases hgt : i + 1 > 30
    · rw [scanLoop_cons_false j j i r rs (AddRow_stop j i r hO hL hgt)]
      omega
    · rw [scanLoop_cons_true j
        { j with Rows := j.Rows ++ [buildRow j.Header r] } i r rs
        (AddRow_append j i r hO hL hi (by omega))]
      have hb := ih { j with Rows := j.Rows ++ [buildRow j.Header r] }
        (i + 1) hO hL (by omega)
      simp only [List.length_append, List.length_cons, List.length_nil] at hb
      omega

/-! ## Claim C9 -/

/-- Claim C9: every `/query` response carries at most 30 rows — `RunSQL`
builds its scanner with offset 0 and limit 30, and for such a scanner
`AddRow` appends a row at index `i` iff `Offset ≤ i` and
`i + 1 ≤ Limit + Offset`, and tells the scan to stop exactly when
`i + 1 > Limit + Offset`. -/
theorem query_rows_bounded :
    (∀ (dbb : DBBehavior) (q : String) (qr : QueryResult),
        RunSQL dbb q = some qr → qr.Rows.length ≤ 30)
    ∧ (NewJsonRowsScanner 0 30).Offset = 0
    ∧ (NewJsonRowsScanner 0 30).Limit = 30
    ∧ (∀ (j : JsonRowsScanner) (i : Int) (cols : List GoVal),
        j.Offset = 0 → j.Limit = 30 → 0 ≤ i →
          ((j.AddRow i cols).1.Rows.length = j.Rows.length + 1
              ↔ (j.Offset ≤ i ∧ i + 1 ≤ j.Limit + j.Offset))
          ∧ ((j.AddRow i cols).2 = false
              ↔ i + 1 > j.Limit + j.Offset)) := by
  refine ⟨?_, rfl, rfl, ?_⟩
  · intro dbb q qr h
    rcases RunSQL_some_shape dbb q qr h with hq | he
    · subst hq
      cases ho : dbb.queryOutcome with
      | connErr msg => simp [Query]
      | scanErr msg => simp [Query]
      | ok header rows =>
        simp only [Query, JsonRowsScanner.Scan, JsonRowsScanner.Complete]
        have := scanLoop_length_bound rows
          ((NewJsonRowsScanner 0 30).StartRows header) 0 rfl rfl (by omega)
        simpa [NewJsonRowsScanner, JsonRowsScanner.StartRows] using this
    · subst he
      cases ho : dbb.execOutcome with
      | execErr msg => simp [Exec]
      | ok id aff idErr affErr =>
        unfold Exec
        cases hm : multierrAppend idErr affErr <;>
          simp [hm, JsonRowsScanner.Complete, JsonRowsScanner.AddRow,
            JsonRowsScanner.StartRows, NewJsonRowsScanner]
  · intro j i cols hO hL hi
    by_cases hgt : i + 1 > 30
    · rw [AddRow_stop j i cols hO hL hgt]
      constructor
      · constructor
        · intro hc
          exfalso
          simp only at hc
          omega
        · intro hc
          exfalso
          rw [hO, hL] at hc
          omega
      · constructor
        · intro _
          rw [hL, hO]
          omega
        · intro _
          rfl
    · rw [AddRow_append j i cols hO hL hi (by omega)]
      constructor
      · constructor
        · intro _
          rw [hO, hL]
          omega
        · intro _
          simp
      · constructor
        · intro hc
          exfalso
          simp only at hc
          exact absurd hc (by simp)
        · intro hc
          exfalso
          rw [hL, hO] at hc
          omega

/-- Witness for C9 at a concrete request: `RunSQL exDB "select 1"`
returns one row, within the 30-row bound, and `AddRow` on the
`RunSQL` scanner appends row 0 and keeps scanning. -/
theorem query_rows_bounded_witness :
    exQr.Rows.length ≤ 30
    ∧ (((NewJsonRowsScanner 0 30).AddRow 0 []).1.Rows.length
          = (NewJsonRowsScanner 0 30).Rows.length + 1
        ↔ ((NewJsonRowsScanner 0 30).Offset ≤ 0
            ∧ (0 : Int) + 1
                ≤ (NewJsonRowsScanner 0 30).Limit
                    + (NewJsonRowsScanner 0 30).Offset)) :=
  ⟨query_rows_bounded.1 exDB "select 1" exQr (by decide),
   (query_rows_bounded.2.2.2 (NewJsonRowsScanner 0 30) 0 [] rfl rfl
      (by omega)).1⟩

/-! ## Helper lemmas for the target registry -/

theorem setEnabled_map_address (l : List Target) (addr : String) (e : Bool) :
    (l.map (fun t =>
        if t.address == addr then { t with enabled := e } else t)).map
        Target.address
      = l.map Target.address := by
  induction l with
  | nil => rfl
  | cons t ts ih =>
    simp only [List.map_cons]
    by_cases h : (t.address == addr) = true
    · rw [if_pos h, ih]
    · rw [if_neg h, ih]

theorem map_preserves_any_address (l : List Target) (addr : String)
    (e : Bool) :
    (l.map (fun t =>
        if t.address == addr then { t with enabled := e } else t)).any
        (fun t => t.address == addr)
      = l.any (fun t => t.address == addr) := by
  induction l with
  | nil => rfl
  | cons t ts ih =>
    simp only [List.map_cons, List.any_cons]
    by_cases h : (t.address == addr) = true
    · rw [if_pos h, ih]
    · rw [if_neg h, ih]

theorem map_noop_of_not_found (l : List Target) (addr : String) (e : Bool)
    (h : l.any (fun t => t.address == addr) = false) :
    l.map (fun t =>
        if t.address == addr then { t with enabled := e } else t) = l := by
  induction l with
  | nil => rfl
  | cons t ts ih =>
    simp only [List.any_cons, Bool.or_eq_false_iff] at h
    simp only [List.map_cons]
    rw [if_neg (by simp [h.1]), ih h.2]

theorem setEnabled_noop (m : Manager) (addr : String) (e : Bool)
    (h : m.targets.any (fun t => t.address == addr) = false) :
    (setEnabled m addr e).1 = m := by
  show { m with targets := _ } = m
  rw [map_noop_of_not_found m.targets addr e h]

theorem mem_map_setEnabled (l : List Target) (addr : String) (e : Bool)
    (t : Target)
    (ht : t ∈ l.map (fun s =>
        if s.address == addr then { s with enabled := e } else s))
    (haddr : t.address = addr) : t.enabled = e := by
  simp only [List.mem_map] at ht
  obtain ⟨s, hs, rfl⟩ := ht
  by_cases h : (s.address == addr) = true
  · simp [h]
  · rw [if_neg (by simp [h])] at haddr ⊢
    exact absurd haddr (by simpa using h)

/-! ## Claim C6 -/

/-- Claim C6 counterexample: on a manager whose single target is enabled
(the construction default), `setEnabled(addr, true)` followed by
`setEnabled(addr, false)` leaves the enabled flag `false`, which differs
from its original value `true` — the pair of calls does not restore the
original flag. -/
theorem setEnabled_toggle_counterexample :
    exManagerOne.targets.map Target.enabled = [true]
    ∧ (setEnabled (setEnabled exManagerOne "127.0.0.1:3301" true).1
          "127.0.0.1:3301" false).1.targets.map Target.enabled = [false]
    ∧ ¬((setEnabled (setEnabled exManagerOne "127.0.0.1:3301" true).1
          "127.0.0.1:3301" false).1.targets.map Target.enabled
        = exManagerOne.targets.map Target.enabled) := by
  refine ⟨rfl, rfl, ?_⟩
  decide

/-- Claim C6 (amended): for every configured address, `setEnabled(addr,
true)` followed by `setEnabled(addr, false)` leaves the target's enabled
flag equal to `false` — the final call's argument, restoring the original
value exactly when that value was `false` — and creates no duplicate
registry entries (the address list is unchanged); for every unknown
address each call changes no state and reports not-found, both times. -/
theorem setEnabled_toggle_amended (m : Manager) (addr : String) :
    ((setEnabled (setEnabled m addr true).1 addr false).1.targets.map
          Target.address
        = m.targets.map Target.address)
    ∧ ((setEnabled m addr true).2
        = m.targets.any (fun t => t.address == addr))
    ∧ ((setEnabled (setEnabled m addr true).1 addr false).2
        = m.targets.any (fun t => t.address == addr))
    ∧ (m.targets.any (fun t => t.address == addr) = false →
        (setEnabled m addr true).1 = m
        ∧ (setEnabled (setEnabled m addr true).1 addr false).1 = m)
    ∧ (∀ t ∈ (setEnabled (setEnabled m addr true).1 addr false).1.targets,
        t.address = addr → t.enabled = false) := by
  refine ⟨?_, rfl, ?_, ?_, ?_⟩
  · show ((m.targets.map _).map _).map Target.address = _
    rw [setEnabled_map_address, setEnabled_map_address]
  · show ((m.targets.map _).any _) = _
    rw [map_preserves_any_address]
  · intro h
    have h1 : (setEnabled m addr true).1 = m := setEnabled_noop m addr true h
    refine ⟨h1, ?_⟩
    rw [h1]
    exact setEnabled_noop m addr false h
  · intro t ht haddr
    exact mem_map_setEnabled _ addr false t ht haddr

/-- Witness for the amended C6 at a concrete manager and address. -/
theorem setEnabled_toggle_amended_witness :
    ((setEnabled (setEnabled exManager "127.0.0.1:3301" true).1
          "127.0.0.1:3301" false).1.targets.map Target.address
        = exManager.targets.map Target.address)
    ∧ ((setEnabled exManager "127.0.0.1:3301" true).2
        = exManager.targets.any (fun t => t.address == "127.0.0.1:3301"))
    ∧ ((setEnabled (setEnabled exManager "127.0.0.1:3301" true).1
          "127.0.0.1:3301" false).2
        = exManager.targets.any (fun t => t.address == "127.0.0.1:3301"))
    ∧ (exManager.targets.any (fun t => t.address == "127.0.0.1:3301")
          = false →
        (setEnabled exManager "127.0.0.1:3301" true).1 = exManager
        ∧ (setEnabled (setEnabled exManager "127.0.0.1:3301" true).1
              "127.0.0.1:3301" false).1 = exManager)
    ∧ (∀ t ∈ (setEnabled (setEnabled exManager "127.0.0.1:3301" true).1
          "127.0.0.1:3301" false).1.targets,
        t.address = "127.0.0.1:3301" → t.enabled = false) :=
  setEnabled_toggle_amended exManager "127.0.0.1:3301"

/-! ## Claim C4 -/

/-- Claim C4: the `/enable` handler sets the named target's enabled state
from the `disable` query parameter (`"1"` requests disabling, anything
else enabling) and responds 404 exactly when `Enable` reports the address
is not among the configured targets; otherwise it responds 200. -/
theorem enable_handler_spec (m : Manager) (tp dp : String) :
    ((enableHandler m tp dp).1
        = if m.targets.any (fun t => t.address == tp) then 200 else 404)
    ∧ ((enableHandler m tp dp).1 = 404
        ↔ m.targets.any (fun t => t.address == tp) = false)
    ∧ (∀ t ∈ (enableHandler m tp dp).2.targets,
        t.address = tp → t.enabled = !(dp == "1")) := by
  have hfound : (m.Enable tp (dp == "1")).2
      = m.targets.any (fun t => t.address == tp) := rfl
  by_cases h : m.targets.any (fun t => t.address == tp) = true
  · refine ⟨?_, ?_, ?_⟩
    · simp [enableHandler, hfound, h]
    · simp [enableHandler, hfound, h]
    · intro t ht haddr
      have : (enableHandler m tp dp).2.targets
          = m.targets.map (fun s =>
              if s.address == tp then { s with enabled := !(dp == "1") }
              else s) := by
        simp [enableHandler, hfound, h, Manager.Enable, setEnabled]
      rw [this] at ht
      exact mem_map_setEnabled _ tp _ t ht haddr
  · rw [Bool.not_eq_true] at h
    refine ⟨?_, ?_, ?_⟩
    · simp [enableHandler, hfound, h]
    · simp [enableHandler, hfound, h]
    · intro t ht haddr
      have : (enableHandler m tp dp).2.targets
          = m.targets.map (fun s =>
              if s.address == tp then { s with enabled := !(dp == "1") }
              else s) := by
        simp [enableHandler, hfound, h, Manager.Enable, setEnabled]
      rw [this] at ht
      exact mem_map_setEnabled _ tp _ t ht haddr

/-- Witness for C4: disabling the first default target answers 200 and
flips that target off; an unknown target answers 404. -/
theorem enable_handler_spec_witness :
    ((enableHandler exManager "127.0.0.1:3301" "1").1
        = if exManager.targets.any
              (fun t => t.address == "127.0.0.1:3301") then 200 else 404)
    ∧ ((enableHandler exManager "10.0.0.9:1" "1").1 = 404
        ↔ exManager.targets.any (fun t => t.address == "10.0.0.9:1")
            = false) :=
  ⟨(enable_handler_spec exManager "127.0.0.1:3301" "1").1,
   (enable_handler_spec exManager "10.0.0.9:1" "1").2.1⟩

/-! ## Claim C7 -/

/-- Claim C7: when every configured target is disabled the next `dial`
fails with `DialFailure` (the enabled-order snapshot is empty), while a
Composite Connection opened earlier remains usable — its `write` is a
function of the connection and the transport alone, still returning the
protagonist's result. -/
theorem dial_all_disabled (m : Manager) (reachable : String → Bool)
    (fo : List String) (h : ∀ t ∈ m.targets, t.enabled = false) :
    dial m reachable fo = Except.error DialError.DialFailure
    ∧ ∀ (c : CConn) (bufLen pn : Nat) (hb : String → Nat × Option String),
        (c.write bufLen (pn, none) hb).n = pn
        ∧ (c.write bufLen (pn, none) hb).err = none := by
  constructor
  · have hE : snapshotEnabledOrder m = [] := by
      unfold snapshotEnabledOrder
      rw [List.filter_eq_nil_iff]
      intro t ht
      simp [h t ht]
    unfold dial
    rw [hE]
  · intro c bufLen pn hb
    exact ⟨rfl, rfl⟩

/-- Witness for C7: the one-target manager with its target disabled fails
to dial, and an existing connection still writes through. -/
theorem dial_all_disabled_witness :
    dial exManagerDisabled exReachable ["127.0.0.1:3301"]
        = Except.error DialError.DialFailure
    ∧ ∀ (c : CConn) (bufLen pn : Nat) (hb : String → Nat × Option String),
        (c.write bufLen (pn, none) hb).n = pn
        ∧ (c.write bufLen (pn, none) hb).err = none :=
  dial_all_disabled exManagerDisabled exReachable ["127.0.0.1:3301"]
    (by decide)

/-! ## Claim C2 -/

theorem haloWriteAll_spec (bufLen : Nat) (hb : String → Nat × Option String)
    (l : List HaloMember) :
    haloWriteAll bufLen hb l
      = ((l.filter (fun h => !haloWriteFails bufLen (hb h.address))).map
           (fun h =>
             { h with bytesWritten := h.bytesWritten + (hb h.address).1 }),
         (l.filter (fun h => haloWriteFails bufLen (hb h.address))).map
           (fun h => { h with closed := true })) := by
  induction l with
  | nil => rfl
  | cons x xs ih =>
    unfold haloWriteAll
    by_cases hf : haloWriteFails bufLen (hb x.address) = true <;>
      simp [hf, ih]

/-- Claim C2: on a write whose protagonist write succeeds, the caller
always receives the protagonist's `(n, error)` pair, whatever the halo
members do; every halo member whose write fails or comes up short is
removed from the active halo set and marked closed, and exactly the
successful members remain (with their byte counters advanced). -/
theorem composite_write_halo_isolation (c : CConn) (bufLen pn : Nat)
    (hb : String → Nat × Option String) :
    (c.write bufLen (pn, none) hb).n = pn
    ∧ (c.write bufLen (pn, none) hb).err = none
    ∧ (c.write bufLen (pn, none) hb).conn.halo
        = (c.halo.filter
              (fun h => !haloWriteFails bufLen (hb h.address))).map
            (fun h =>
              { h with bytesWritten := h.bytesWritten + (hb h.address).1 })
    ∧ (c.write bufLen (pn, none) hb).closedHalo
        = (c.halo.filter
              (fun h => haloWriteFails bufLen (hb h.address))).map
            (fun h => { h with closed := true }) := by
  refine ⟨rfl, rfl, ?_, ?_⟩ <;>
    simp [CConn.write, haloWriteAll_spec]

/-! ## Claim C1 -/

theorem contains_filter_reachable (m : Manager) (reachable : String → Bool)
    (fo : List String)
    (hperm : fo.Perm ((snapshotEnabledOrder m).map Target.address)) :
    ∀ t ∈ snapshotEnabledOrder m,
      ((fo.filter reachable).contains t.address) = reachable t.address := by
  intro t ht
  have haddr : t.address ∈ (snapshotEnabledOrder m).map Target.address :=
    List.mem_map_of_mem Target.address ht
  have hfo : t.address ∈ fo := hperm.mem_iff.2 haddr
  cases hr : reachable t.address with
  | true =>
    have hmem : t.address ∈ fo.filter reachable :=
      List.mem_filter.2 ⟨hfo, hr⟩
    show List.elem t.address (fo.filter reachable) = true
    exact List.elem_iff.2 hmem
  | false =>
    cases hc : (fo.filter reachable).contains t.address with
    | false => rfl
    | true =>
      exfalso
      have hmem : t.address ∈ fo.filter reachable := by
        have hc2 : List.elem t.address (fo.filter reachable) = true := hc
        exact List.elem_iff.1 hc2
      have := (List.mem_filter.1 hmem).2
      rw [hr] at this
      exact absurd this (by simp)

theorem filter_enabled_reachable (l : List Target)
    (reachable : String → Bool) :
    (l.filter (fun t => t.enabled)).filter (fun t => reachable t.address)
      = l.filter (fun t => t.enabled && reachable t.address) := by
  induction l with
  | nil => rfl
  | cons t ts ih =>
    by_cases he : t.enabled = true <;>
      by_cases hr : reachable t.address = true <;>
        simp [List.filter_cons, he, hr, ih]

theorem dial_eq_mirror (m : Manager) (reachable : String → Bool)
    (fo : List String) (t0 : Target) (rest0 : List Target)
    (hE : snapshotEnabledOrder m = t0 :: rest0)
    (hm : m.mirroringEnabled = true) :
    dial m reachable fo
      = match (t0 :: rest0).filter
            (fun t => (fo.filter reachable).contains t.address) with
        | [] => Except.error DialError.DialFailure
        | p :: halos =>
            Except.ok
              { protagonist := p.address, protagonistBytesWritten := 0,
                halo := halos.map (fun t => newHalo t.address) } := by
  unfold dial
  rw [hE, hm]
  rfl

/-- Claim C1: with mirroring enabled, `dial()` succeeds iff at least one
enabled target is reachable within the dial timeout, and the protagonist
of the returned Composite Connection is the earliest enabled target in
the original configured order among those whose dial succeeded —
regardless of the order in which the concurrent dials finish
(`fo` ranges over every permutation of the enabled addresses). -/
theorem dial_mirroring_selects_earliest (m : Manager)
    (reachable : String → Bool) (fo : List String)
    (hm : m.mirroringEnabled = true)
    (hperm : fo.Perm ((snapshotEnabledOrder m).map Target.address)) :
    ((∃ c, dial m reachable fo = Except.ok c)
        ↔ ∃ t ∈ m.targets, t.enabled = true ∧ reachable t.address = true)
    ∧ (∀ c, dial m reachable fo = Except.ok c →
        ((m.targets.filter
            (fun t => t.enabled && reachable t.address)).head?).map
            Target.address
          = some c.protagonist) := by
  have hcong : ∀ (l : List Target), l = snapshotEnabledOrder m →
      l.filter (fun t => (fo.filter reachable).contains t.address)
        = l.filter (fun t => reachable t.address) := by
    intro l hl
    apply List.filter_congr
    intro t ht
    rw [hl] at ht
    exact contains_filter_reachable m reachable fo hperm t ht
  rcases hE : snapshotEnabledOrder m with _ | ⟨t0, rest0⟩
  · have herr : dial m reachable fo = Except.error DialError.DialFailure := by
      unfold dial
      rw [hE]
    have hno : ∀ t ∈ m.targets, ¬(t.enabled = true) := by
      intro t ht
      have := List.filter_eq_nil_iff.1 hE t ht
      simpa using this
    constructor
    · constructor
      · rintro ⟨c, hc⟩
        rw [herr] at hc
        exact Except.noConfusion hc
      · rintro ⟨t, ht, he, hr⟩
        exact absurd he (hno t ht)
    · intro c hc
      rw [herr] at hc
      exact Except.noConfusion hc
  · have hd := dial_eq_mirror m reachable fo t0 rest0 hE hm
    rw [hcong (t0 :: rest0) hE.symm] at hd
    have hfe : (t0 :: rest0).filter (fun t => reachable t.address)
        = m.targets.filter (fun t => t.enabled && reachable t.address) := by
      rw [← hE]
      exact filter_enabled_reachable m.targets reachable
    rw [hfe] at hd
    rcases hT : m.targets.filter
        (fun t => t.enabled && reachable t.address) with _ | ⟨p, halos⟩
    · rw [hT] at hd
      constructor
      · constructor
        · rintro ⟨c, hc⟩
          rw [hd] at hc
          exact Except.noConfusion hc
        · rintro ⟨t, ht, he, hr⟩
          have : t ∈ m.targets.filter
              (fun t => t.enabled && reachable t.address) :=
            List.mem_filter.2 ⟨ht, by rw [he, hr]; rfl⟩
          rw [hT] at this
          exact absurd this (by simp)
      · intro c hc
        rw [hd] at hc
        exact Except.noConfusion hc
    · rw [hT] at hd
      constructor
      · constructor
        · intro _
          have hp : p ∈ m.targets.filter
              (fun t => t.enabled && reachable t.address) := by
            rw [hT]
            exact List.mem_cons_self p halos
          obtain ⟨hmem, hband⟩ := List.mem_filter.1 hp
          rw [Bool.and_eq_true] at hband
          exact ⟨p, hmem, hband.1, hband.2⟩
        · intro _
          exact ⟨_, hd⟩
      · intro c hc
        rw [hd] at hc
        have hcp : c.protagonist = p.address := by
          have := Except.ok.inj hc
          rw [← this]
        rw [hT, hcp]
        rfl

/-- Witness for C1: both default targets enabled, only the second
reachable, dials finishing in reverse order — the protagonist is still
chosen by configured order among the successes. -/
theorem dial_mirroring_selects_earliest_witness :
    ((∃ c, dial exManager exReachable exFinishOrder = Except.ok c)
        ↔ ∃ t ∈ exManager.targets, t.enabled = true
            ∧ exReachable t.address = true)
    ∧ (∀ c, dial exManager exReachable exFinishOrder = Except.ok c →
        ((exManager.targets.filter
            (fun t => t.enabled && exReachable t.address)).head?).map
            Target.address
          = some c.protagonist) :=
  dial_mirroring_selects_earliest exManager exReachable exFinishOrder rfl
    (by decide)

end Dualconn
